import Mathlib

/-!
Verification development for `scan_record_nfm.py`, a multi-channel
narrowband FM/AM demodulator and scanner.

The Python source is shallowly embedded below: pure computations become
Lean functions over `ℚ`, `ℝ`, `ℂ` and lists; the parts that mutate object
state (`Demodulator.squelch`, `Demodulator.vote_by_dbfs`, the mixer phase,
the channel registry) become explicit state-passing functions; fallible
code (paths that can raise a Python exception) returns `Except`.
-/

namespace ScanRecordNfm

/-- Python exceptions that the modelled code paths can raise. -/
inductive PyError where
  | typeError : PyError
  | valueError : PyError
deriving DecidableEq, Repr

/-! ## Fixed constants (source lines 31–41, 61–66) -/

/-- `N_NOISE = 5` (line 31): number of bootstrap noise PSD snapshots. -/
def N_NOISE : ℕ := 5

/-- `IF_RATE = 25000` (line 34). -/
def IF_RATE : ℕ := 25000

/-- `AUDIO_RATE = 12500` (line 36). -/
def AUDIO_RATE : ℕ := 12500

/-- `THRESHOLD_SNR = 15` (line 37): dB above the noise floor needed for a `+1` vote. -/
def THRESHOLD_SNR : ℚ := 15

/-- `HISTERESIS_UP = -3` (line 39): the spec calls this `HIST_LOW`. -/
def HISTERESIS_UP : ℤ := -3

/-- `HISTERESIS_DOWN = 3` (line 40): the spec calls this `HIST_HIGH`. -/
def HISTERESIS_DOWN : ℤ := 3

/-- `CHANNEL_SPACING = 12500` (line 41). -/
def CHANNEL_SPACING : ℤ := 12500

/-- `THRESH_FACTOR = 9` (line 63): multiplier on the noise std for the scan threshold. -/
def THRESH_FACTOR : ℝ := 9

/-- `silence = numpy.zeros(IF_RATE // 10)` (line 66): block returned when squelch closes. -/
def silence : List ℚ := List.replicate (IF_RATE / 10) 0

/-! ## Squelch state machine (`Demodulator.squelch`, lines 234–270)

The mutable fields of `Demodulator` touched by `squelch` become an explicit
state record. Baseband sample buffers are modelled as `List ℚ`. -/

/-- The squelch-relevant mutable state of a `Demodulator`
(`is_recording`, `histeresis`, `old_histeresis`, `memory_up`). -/
structure SquelchState where
  is_recording : Bool
  histeresis : ℤ
  old_histeresis : ℤ
  memory_up : List (List ℚ)
deriving DecidableEq, Repr

/-- One call of `Demodulator.squelch` (lines 234–270), with the vote produced by
the active voter passed in explicitly (the source computes it from
`vote_by_dbfs` or `vote_by_autocorrelation` at lines 236–239).
Returns the new state, the squelch flag (`not self.is_recording`, or the early
`False` of the stop branch) and the returned sample buffer.
On the start-recording branch the source concatenates `memory_up`
(line 258), which is non-empty there because that branch is reached with a
positive vote that has just appended to it; `List.join` models the
concatenation. -/
def squelchStep (s : SquelchState) (vote : ℤ) (output_raw : List ℚ) :
    SquelchState × Bool × List ℚ :=
  let old := s.histeresis
  let h := min HISTERESIS_DOWN (max HISTERESIS_UP (s.histeresis + vote))
  if s.is_recording = false then
    let mem := if vote > 0 then s.memory_up ++ [output_raw] else []
    if h ≥ 0 then
      (⟨true, HISTERESIS_DOWN, old, []⟩, false, mem.flatten)
    else
      (⟨false, h, old, mem⟩, true, output_raw)
  else
    if h ≤ 0 then
      (⟨false, HISTERESIS_UP, old, []⟩, false, silence)
    else
      (⟨true, h, old, s.memory_up⟩, false, output_raw)

/-! ## Strength voter (`Demodulator.vote_by_dbfs`, lines 274–290)

State read and written: `is_recording` (read), `dbfs_off` (read/written).
Result: the vote and the new `dbfs_off`. -/

/-- One call of `Demodulator.vote_by_dbfs` (lines 274–290): vote `+1` iff
`dbfs > dbfs_off + THRESHOLD_SNR`, else `-1`; when not recording and the vote
is negative, smooth the noise floor `dbfs_off` asymmetrically. -/
def vote_by_dbfs (is_recording : Bool) (dbfs_off dbfs : ℚ) : ℤ × ℚ :=
  let vote : ℤ := if dbfs > dbfs_off + THRESHOLD_SNR then 1 else -1
  if is_recording = false ∧ vote < 0 then
    if dbfs < dbfs_off then
      (vote, 0.05 * dbfs + 0.95 * dbfs_off)
    else
      (vote, 0.005 * dbfs + 0.995 * dbfs_off)
  else
    (vote, dbfs_off)

/-- Several consecutive calls of `Demodulator.squelch`, tracking only the
state; each step carries its vote and the batch's baseband buffer. -/
def squelchRun (s : SquelchState) (steps : List (ℤ × List ℚ)) : SquelchState :=
  steps.foldl (fun st p => (squelchStep st p.1 p.2).1) s

/-! ## Channel registry (`Demodulator.is_within`, lines 123–126;
`FrequencyAdder._ingest`, lines 401–419) -/

/-- `Demodulator.lower_freq` (line 79): `freq - CHANNEL_SPACING // 2`. -/
def lower_freq (freq : ℤ) : ℤ := freq - CHANNEL_SPACING / 2

/-- `Demodulator.higher_freq` (line 80): `freq + CHANNEL_SPACING // 2`. -/
def higher_freq (freq : ℤ) : ℤ := freq + CHANNEL_SPACING / 2

/-- `Demodulator.is_within` (lines 123–126): whether `freq` falls in the
half-open interval `(lower_freq, higher_freq]` of the channel at `chFreq`. -/
def is_within (chFreq freq : ℤ) : Bool :=
  decide (lower_freq chFreq < freq ∧ freq ≤ higher_freq chFreq)

/-- The registry-insertion step of `FrequencyAdder._ingest`
(lines 414–419): the registry is modelled by its list of channel
frequencies (`self.demod.values()` keyed by frequency); a detected
frequency is appended exactly when no existing channel's interval
contains it. -/
def addFrequency (registry : List ℤ) (freq : ℤ) : List ℤ :=
  if registry.any (fun c => is_within c freq) then registry
  else registry ++ [freq]

/-! ## Byte-stream ingest (`ingest_data`, lines 339–357) -/

/-- Conversion of interleaved unsigned-8 bytes to complex samples
(lines 353–356): each byte `b` becomes `(b − 127.5) / 128` and consecutive
values pair into complex samples, modelled as `ℚ × ℚ`. -/
def toIQ : List ℕ → List (ℚ × ℚ)
  | b1 :: b2 :: rest =>
      (((b1 : ℚ) - 127.5) / 128, ((b2 : ℚ) - 127.5) / 128) :: toIQ rest
  | _ => []

/-- Result of one successful `ingest_data` call: the complex samples, the
carry returned for the next call, and whether the empty-read condition was
logged (lines 343–344). -/
structure IngestResult where
  samples : List (ℚ × ℚ)
  remaining : List ℕ
  loggedEmptyRead : Bool
deriving DecidableEq, Repr

/-! ## Carrier mixer (`Demodulator.__init__`, lines 91–98;
`Demodulator._ingest`, lines 154–159) -/

/-- Entry `t` of the carrier table (lines 93–95):
`cmath.exp((0-1j) * tau * t * (if_freq / INPUT_RATE))` with `tau = 2π`
(line 65). The finite table of the source has length `INGEST_SIZE * 2` and
is read through its logical period `if_period = INPUT_RATE // STEP`
(line 96); the entries are the values of this function. -/
noncomputable def carrierEntry (if_freq : ℤ) (input_rate : ℕ) (t : ℕ) : ℂ :=
  Complex.exp ((0 - Complex.I) * (2 * (Real.pi : ℂ)) * (t : ℂ)
    * ((if_freq : ℂ) / (input_rate : ℂ)))

/-- Elementwise multiplication of a batch by the carrier-table slice
starting at `phase` (lines 155 and 159):
`iqsamples * carrier_table[if_phase : if_phase + len(iqsamples)]`. -/
noncomputable def mixSamples (if_freq : ℤ) (input_rate : ℕ) :
    ℕ → List ℂ → List ℂ
  | _, [] => []
  | phase, x :: xs =>
      x * carrierEntry if_freq input_rate phase
        :: mixSamples if_freq input_rate (phase + 1) xs

/-- One mixing step of `_ingest` (lines 154–159): the mixed batch together
with the advanced phase `(if_phase + len(iqsamples)) % if_period`
(line 157). -/
noncomputable def mixBatch (if_freq : ℤ) (input_rate if_period : ℕ)
    (phase : ℕ) (xs : List ℂ) : List ℂ × ℕ :=
  (mixSamples if_freq input_rate phase xs, (phase + xs.length) % if_period)

/-- Mixing a sequence of consecutive sub-batches, threading the phase state
from each batch to the next as successive `_ingest` calls do. -/
noncomputable def mixChunks (if_freq : ℤ) (input_rate if_period : ℕ) :
    ℕ → List (List ℂ) → List ℂ
  | _, [] => []
  | phase, c :: cs =>
      (mixBatch if_freq input_rate if_period phase c).1
        ++ mixChunks if_freq input_rate if_period
            (mixBatch if_freq input_rate if_period phase c).2 cs

/-! ## Signal strength (`Demodulator._ingest`, lines 173–175) -/

/-- `strength = numpy.sum(numpy.absolute(ifsamples)) / len(ifsamples)`
(line 174): the mean magnitude of the IF batch. -/
noncomputable def strengthOf (ifsamples : List ℂ) : ℝ :=
  (ifsamples.map Complex.abs).sum / ifsamples.length

/-- `dbfs = 20 * math.log10(strength)` (line 175). `math.log10` raises
`ValueError` on a non-positive argument and the source has no guard around
it, so the computation is fallible. -/
noncomputable def dbfsOf (ifsamples : List ℂ) : Except PyError ℝ :=
  if strengthOf ifsamples ≤ 0 then Except.error PyError.valueError
  else Except.ok (20 * Real.logb 10 (strengthOf ifsamples))

/-! ## Scan-threshold bootstrap (`get_average_noise`, lines 370–376;
`threshold`, lines 427–428) -/

/-- `numpy.mean` of a vector of log-power bins. -/
noncomputable def npMean (xs : List ℝ) : ℝ := xs.sum / xs.length

/-- `numpy.std` of a vector of log-power bins: the square root of the mean
squared deviation from the mean (`ddof = 0`). -/
noncomputable def npStd (xs : List ℝ) : ℝ :=
  Real.sqrt (npMean (xs.map fun x => (x - npMean xs) ^ 2))

/-- `get_average_noise` (lines 370–376) over the list of PSD log-power
snapshots taken in its loop: `total_signal` is extended with every
snapshot, but the returned statistics are `numpy.mean(S), numpy.std(S)` of
the loop variable `S`, which after the loop holds only the final
snapshot. -/
noncomputable def get_average_noise (snapshots : List (List ℝ)) : ℝ × ℝ :=
  let st := snapshots.foldl (fun acc S => (acc.1 ++ S, S))
    (([] : List ℝ), ([] : List ℝ))
  (npMean st.2, npStd st.2)

/-- `threshold = mean + THRESH_FACTOR * std` (line 428), fixed once at
startup from the bootstrap snapshots. -/
noncomputable def thresholdOf (snapshots : List (List ℝ)) : ℝ :=
  (get_average_noise snapshots).1
    + THRESH_FACTOR * (get_average_noise snapshots).2

/-- Modelled from the spec's words only, for comparison: the threshold the
scanner would use if the statistics were pooled over all `N_NOISE`
snapshots (the behaviour the spec explicitly says the source does *not*
have). -/
noncomputable def pooledThresholdOf (snapshots : List (List ℝ)) : ℝ :=
  npMean snapshots.flatten + THRESH_FACTOR * npStd snapshots.flatten

/-- A concrete bootstrap run of `N_NOISE = 5` snapshots on which the
final-snapshot statistics and the pooled statistics disagree. -/
noncomputable def demoSnapshots : List (List ℝ) :=
  [[0, 2], [0, 2], [0, 2], [0, 2], [1, 1]]

/-! ## Timestamp watermark (`Demodulator.gen_timestamp`, lines 316–337) -/

/-- The broken-down civil time fields of a Python `datetime` value. In the
source the encoded instant is `datetime.datetime.utcnow()` minus the
duration `len(output) / AUDIO_RATE` of the first audio block (lines
317–318); that corrected instant is the input here. -/
structure PyDateTime where
  year : ℕ
  month : ℕ
  day : ℕ
  hour : ℕ
  minute : ℕ
  second : ℕ
  microsecond : ℕ
deriving DecidableEq, Repr

/-- `Demodulator.gen_timestamp` (lines 319–337): the watermark sample
values, in order, for the corrected instant `now`. -/
def genTimestamp (now : PyDateTime) : List ℕ :=
  [0x81, 0x82,
   127 - 5 + (now.year % 10000) / 1000,
   127 - 5 + (now.year % 1000) / 100,
   127 - 5 + (now.year % 100) / 10,
   127 - 5 + (now.year % 10) / 1,
   127 - 5 + now.month,
   127 - 5 + now.day / 10,
   127 - 5 + now.day % 10,
   127 - 5 + now.hour / 10,
   127 - 5 + now.hour % 10,
   127 - 5 + now.minute / 10,
   127 - 5 + now.minute % 10,
   127 - 5 + now.second / 10,
   127 - 5 + now.second % 10,
   127 - 5 + (now.microsecond % 1000000) / 100000,
   127 - 5 + (now.microsecond % 100000) / 10000,
   0x83, 0x84]

/-- The decoding property of a watermark: 19 values, sentinels `0x81, 0x82`
in front and `0x83, 0x84` at the back, and subtracting the digit bias
`127 − 5 = 122` from the 15 payload values recovers the year (mod 10000),
the month, and the two-digit day, hour, minute, second and the
ten-thousands of microseconds of the encoded instant. -/
def TimestampDecodes (dt : PyDateTime) : Prop :=
  (genTimestamp dt).length = 19
  ∧ (genTimestamp dt).take 2 = [0x81, 0x82]
  ∧ (genTimestamp dt).drop 17 = [0x83, 0x84]
  ∧ 1000 * ((genTimestamp dt).getD 2 0 - 122)
      + 100 * ((genTimestamp dt).getD 3 0 - 122)
      + 10 * ((genTimestamp dt).getD 4 0 - 122)
      + ((genTimestamp dt).getD 5 0 - 122) = dt.year % 10000
  ∧ (genTimestamp dt).getD 6 0 - 122 = dt.month
  ∧ 10 * ((genTimestamp dt).getD 7 0 - 122)
      + ((genTimestamp dt).getD 8 0 - 122) = dt.day
  ∧ 10 * ((genTimestamp dt).getD 9 0 - 122)
      + ((genTimestamp dt).getD 10 0 - 122) = dt.hour
  ∧ 10 * ((genTimestamp dt).getD 11 0 - 122)
      + ((genTimestamp dt).getD 12 0 - 122) = dt.minute
  ∧ 10 * ((genTimestamp dt).getD 13 0 - 122)
      + ((genTimestamp dt).getD 14 0 - 122) = dt.second
  ∧ 10 * ((genTimestamp dt).getD 15 0 - 122)
      + ((genTimestamp dt).getD 16 0 - 122) = dt.microsecond / 10000

/-! ## Worker shutdown (main block, lines 444–451; `Demodulator.close_queue`
and `drain_queue`, lines 140–144) -/

/-- The worker threads of the process: one per demodulator channel
(lines 110–121) plus the `FrequencyAdder` scanner worker (lines 385–396). -/
inductive WorkerId where
  | demod (freq : ℤ) : WorkerId
  | frequencyAdder : WorkerId
deriving DecidableEq, Repr

/-- All workers of a process whose channel registry holds `demodFreqs`. -/
def allWorkers (demodFreqs : List ℤ) : List WorkerId :=
  demodFreqs.map WorkerId.demod ++ [WorkerId.frequencyAdder]

/-- The workers that receive the `None` termination sentinel after the
ingest loop stops: lines 447–448 call `close_queue` for each demodulator in
the registry and for nothing else. -/
def shutdownSentinelTargets (demodFreqs : List ℤ) : List WorkerId :=
  demodFreqs.map WorkerId.demod

/-- The workers the main thread joins: lines 450–451 call `drain_queue`
(a `thread.join`) for each demodulator in the registry and for nothing
else. -/
def shutdownJoinTargets (demodFreqs : List ℤ) : List WorkerId :=
  demodFreqs.map WorkerId.demod

/-- One call of `ingest_data` (lines 339–357), with the bytes returned by
`sys.stdin.buffer.read` passed in as `readData`. An empty read is only
logged (lines 343–344) and execution continues with
`data = remaining ++ readData`. When `data` has odd length, line 349 calls
`logging.info` with a `file=` keyword argument, which `logging.info` does
not accept, so the call raises `TypeError` before the odd byte is saved.
On the even-length path the function returns the samples together with the
incoming carry unchanged (the source does not reassign `remaining_data` on
that path). -/
def ingest_data (readData remaining : List ℕ) : Except PyError IngestResult :=
  let logged := readData.isEmpty
  let data := remaining ++ readData
  if data.length % 2 = 1 then
    Except.error PyError.typeError
  else
    Except.ok ⟨toIQ data, remaining, logged⟩

end ScanRecordNfm

namespace ScanRecordNfm

/-- C1: from `is_recording = false`, `histeresis = HISTERESIS_UP = -3`
(spec: `HIST_LOW`), three consecutive `+1` votes leave the squelch recording
with `histeresis = HISTERESIS_DOWN = +3` (spec: `HIST_HIGH`); symmetrically,
from `is_recording = true`, `histeresis = HISTERESIS_DOWN`, three consecutive
`-1` votes leave it not recording with `histeresis = HISTERESIS_UP`. -/
theorem squelch_three_votes_transition
    (old old' : ℤ) (mem mem' : List (List ℚ)) (o1 o2 o3 p1 p2 p3 : List ℚ) :
    ((squelchRun ⟨false, HISTERESIS_UP, old, mem⟩
        [(1, o1), (1, o2), (1, o3)]).is_recording = true
      ∧ (squelchRun ⟨false, HISTERESIS_UP, old, mem⟩
        [(1, o1), (1, o2), (1, o3)]).histeresis = HISTERESIS_DOWN)
    ∧ ((squelchRun ⟨true, HISTERESIS_DOWN, old', mem'⟩
        [(-1, p1), (-1, p2), (-1, p3)]).is_recording = false
      ∧ (squelchRun ⟨true, HISTERESIS_DOWN, old', mem'⟩
        [(-1, p1), (-1, p2), (-1, p3)]).histeresis = HISTERESIS_UP) := by
  simp +decide [squelchRun, squelchStep, HISTERESIS_UP, HISTERESIS_DOWN]

/-- C3: `vote_by_dbfs` leaves `dbfs_off` unchanged whenever `is_recording` is
true; when not recording it updates `dbfs_off` with coefficient `0.05` on a
`-1` vote with `dbfs < dbfs_off`, with coefficient `0.005` on a `-1` vote
otherwise, and leaves it unchanged on a `+1` vote. -/
theorem vote_by_dbfs_noise_floor (dbfs_off dbfs : ℚ) :
    (vote_by_dbfs true dbfs_off dbfs).2 = dbfs_off
    ∧ ((vote_by_dbfs false dbfs_off dbfs).1 = -1 →
        (vote_by_dbfs false dbfs_off dbfs).2 =
          if dbfs < dbfs_off then 0.05 * dbfs + 0.95 * dbfs_off
          else 0.005 * dbfs + 0.995 * dbfs_off)
    ∧ ((vote_by_dbfs false dbfs_off dbfs).1 = 1 →
        (vote_by_dbfs false dbfs_off dbfs).2 = dbfs_off) := by
  refine ⟨?_, ?_, ?_⟩
  · simp [vote_by_dbfs]
  · intro h
    by_cases hv : dbfs > dbfs_off + THRESHOLD_SNR
    · simp [vote_by_dbfs, hv] at h
    · by_cases hlt : dbfs < dbfs_off <;> simp [vote_by_dbfs, hv, hlt]
  · intro h
    by_cases hv : dbfs > dbfs_off + THRESHOLD_SNR
    · simp [vote_by_dbfs, hv]
    · by_cases hlt : dbfs < dbfs_off <;> simp [vote_by_dbfs, hv, hlt] at h

/-- Witness for C3 at concrete inputs: with `dbfs_off = 0`, a batch at
`dbfs = -10` votes `-1` and tracks the floor down fast; a batch at
`dbfs = 20` votes `+1` and leaves the floor alone. -/
theorem vote_by_dbfs_noise_floor_witness :
    (vote_by_dbfs true 0 (-10)).2 = 0
    ∧ (vote_by_dbfs false 0 (-10)).2 = 0.05 * (-10) + 0.95 * 0
    ∧ (vote_by_dbfs false 0 20).2 = 0 := by
  refine ⟨(vote_by_dbfs_noise_floor 0 (-10)).1, ?_, ?_⟩
  · have h := (vote_by_dbfs_noise_floor 0 (-10)).2.1
      (by norm_num [vote_by_dbfs, THRESHOLD_SNR])
    simpa using h
  · exact (vote_by_dbfs_noise_floor 0 20).2.2
      (by norm_num [vote_by_dbfs, THRESHOLD_SNR])

/-- Every frequency lies inside its own channel's half-open interval, so a
frequency already in the registry is never re-inserted. -/
theorem is_within_self (f : ℤ) : is_within f f = true := by
  simp [is_within, lower_freq, higher_freq, CHANNEL_SPACING]

/-- C5: inserting a detected frequency preserves registry uniqueness (no
two channels share an RF frequency), and a new channel is created exactly
when no existing channel's half-open interval `(lower_freq, higher_freq]`
contains the detected frequency; otherwise the registry is unchanged. -/
theorem registry_unique_insert (reg : List ℤ) (f : ℤ) (h : reg.Nodup) :
    (addFrequency reg f).Nodup
    ∧ (addFrequency reg f = reg ++ [f] ↔ ∀ c ∈ reg, is_within c f = false)
    ∧ (addFrequency reg f = reg ↔ ∃ c ∈ reg, is_within c f = true) := by
  by_cases hany : reg.any (fun c => is_within c f) = true
  · rcases List.any_eq_true.mp hany with ⟨c, hc, hcf⟩
    refine ⟨by simpa [addFrequency, hany] using h, ?_, ?_⟩
    · constructor
      · intro heq
        exfalso
        rw [addFrequency, if_pos hany] at heq
        have := congrArg List.length heq
        simp at this
      · intro hall
        exact absurd (hall c hc) (by simp [hcf])
    · simp [addFrequency, hany]
      exact ⟨c, hc, hcf⟩
  · have hnotin : f ∉ reg := by
      intro hf
      exact hany (List.any_eq_true.mpr ⟨f, hf, is_within_self f⟩)
    refine ⟨?_, ?_, ?_⟩
    · rw [addFrequency, if_neg hany]
      simp [List.nodup_append, h, hnotin]
    · simp only [addFrequency, if_neg hany, true_iff]
      intro c hc
      by_contra hcf
      exact hany (List.any_eq_true.mpr ⟨c, hc, by simpa using hcf⟩)
    · constructor
      · intro heq
        exfalso
        rw [addFrequency, if_neg hany] at heq
        have := congrArg List.length heq
        simp at this
      · intro ⟨c, hc, hcf⟩
        exact absurd (List.any_eq_true.mpr ⟨c, hc, hcf⟩) hany

/-- Witness for C5: a registry holding the single channel 12500 accepts the
detected frequency 25000 (outside `(6250, 18750]`) and stays duplicate-free. -/
theorem registry_unique_insert_witness :
    ([(12500 : ℤ)].Nodup)
    ∧ ((addFrequency [(12500 : ℤ)] 25000).Nodup
      ∧ (addFrequency [(12500 : ℤ)] 25000 = [(12500 : ℤ)] ++ [25000] ↔
          ∀ c ∈ [(12500 : ℤ)], is_within c 25000 = false)
      ∧ (addFrequency [(12500 : ℤ)] 25000 = [(12500 : ℤ)] ↔
          ∃ c ∈ [(12500 : ℤ)], is_within c 25000 = true)) :=
  ⟨by decide, registry_unique_insert [(12500 : ℤ)] 25000 (by decide)⟩

/-- C6 counterexample: an EOF read (the stream yields no bytes) with an
empty carry produces a normal result: the condition is logged but
`ingest_data` returns an empty batch, so the main loop keeps iterating; no
path terminates the ingest loop, drains the workers, or exits the process. -/
theorem ingest_eof_returns_ok :
    ingest_data [] [] = Except.ok ⟨[], [], true⟩ := rfl

/-- C6 (amended): when the read yields no data, `ingest_data` logs the
condition and returns successfully with the samples of the carried-over
bytes (an empty batch when the carry is empty) and the carry unchanged;
the ingest loop is not terminated and the process does not exit. -/
theorem ingest_eof_logs_and_continues (remaining : List ℕ)
    (h : remaining.length % 2 = 0) :
    ingest_data [] remaining = Except.ok ⟨toIQ remaining, remaining, true⟩ := by
  simp [ingest_data, h]

/-- Witness for the amended C6 at the concrete EOF input with empty carry. -/
theorem ingest_eof_logs_and_continues_witness :
    ([] : List ℕ).length % 2 = 0
    ∧ ingest_data [] [] = Except.ok ⟨toIQ [], [], true⟩ :=
  ⟨by decide, ingest_eof_logs_and_continues [] (by decide)⟩

/-- C7: on a read returning an odd number of bytes the source does not warn
and continue: line 349 passes the unsupported `file=` keyword to
`logging.info`, raising `TypeError` before the odd byte is carried over. -/
theorem ingest_odd_byte_raises :
    ingest_data [0, 1, 2] [] = Except.error PyError.typeError := rfl

/-- C8 counterexample: on a batch whose samples are all zero the mean
magnitude is exactly zero and the strength computation raises `ValueError`
(`math.log10(0)` has no guard), contradicting the claim that a floor value
is substituted and no error is visible. -/
theorem dbfs_zero_strength_raises :
    dbfsOf [(0 : ℂ)] = Except.error PyError.valueError := by
  have hs : strengthOf [(0 : ℂ)] = 0 := by
    simp [strengthOf]
  rw [dbfsOf, if_pos (le_of_eq hs)]

/-- C8 (amended): the strength computation has no guard: it raises
`ValueError` when the mean magnitude is exactly zero, and for every batch
with positive mean magnitude it returns `20·log10(strength)` without
error. -/
theorem dbfs_total_on_positive_strength (xs : List ℂ)
    (h : 0 < strengthOf xs) :
    dbfsOf xs = Except.ok (20 * Real.logb 10 (strengthOf xs)) := by
  rw [dbfsOf, if_neg (not_le.mpr h)]

/-- Witness for the amended C8 on the one-sample batch `[1]`. -/
theorem dbfs_total_on_positive_strength_witness :
    0 < strengthOf [(1 : ℂ)]
    ∧ dbfsOf [(1 : ℂ)]
      = Except.ok (20 * Real.logb 10 (strengthOf [(1 : ℂ)])) := by
  have h : 0 < strengthOf [(1 : ℂ)] := by
    simp [strengthOf]
  exact ⟨h, dbfs_total_on_positive_strength [(1 : ℂ)] h⟩

/-- The accumulator loop of `get_average_noise` leaves the final snapshot
in the loop variable `S`, whatever was accumulated before. -/
theorem noise_loop_keeps_last (l : List (List ℝ)) :
    ∀ init : List ℝ × List ℝ,
      (l.foldl (fun acc S => (acc.1 ++ S, S)) init).2
        = (l.getLast?).getD init.2 := by
  induction l with
  | nil => intro init; rfl
  | cons a l ih =>
    intro init
    rw [List.foldl_cons, ih]
    cases l with
    | nil => simp
    | cons b l' =>
      rw [List.getLast?_cons_cons]
      have hs : ((b :: l').getLast?).isSome :=
        List.getLast?_isSome.mpr (by simp)
      cases hx : (b :: l').getLast? with
      | none => rw [hx] at hs; simp at hs
      | some v => simp [hx]

/-- C4: the scan threshold is `mean + 9·std` of the final bootstrap
snapshot's log-power bins alone — the accumulated `total_signal` of all
`N_NOISE` snapshots is ignored — and on a concrete five-snapshot bootstrap
it differs from the pooled-statistics threshold. -/
theorem threshold_from_final_snapshot (snapshots : List (List ℝ)) :
    thresholdOf snapshots
      = npMean ((snapshots.getLast?).getD [])
        + THRESH_FACTOR * npStd ((snapshots.getLast?).getD [])
    ∧ thresholdOf demoSnapshots ≠ pooledThresholdOf demoSnapshots := by
  constructor
  · simp only [thresholdOf, get_average_noise, noise_loop_keeps_last]
  · have hm1 : npMean [(1 : ℝ), 1] = 1 := by
      simp [npMean]
    have hs1 : npStd [(1 : ℝ), 1] = 0 := by
      simp only [npStd, hm1]
      norm_num [npMean]
    have hlast : (demoSnapshots.getLast?).getD [] = [(1 : ℝ), 1] := by
      simp [demoSnapshots]
    have hT : thresholdOf demoSnapshots = 1 := by
      simp only [thresholdOf, get_average_noise, noise_loop_keeps_last,
        hlast, hm1, hs1, THRESH_FACTOR]
      norm_num
    have hflat : demoSnapshots.flatten
        = [(0 : ℝ), 2, 0, 2, 0, 2, 0, 2, 1, 1] := by
      simp [demoSnapshots]
    have hm2 : npMean [(0 : ℝ), 2, 0, 2, 0, 2, 0, 2, 1, 1] = 1 := by
      simp [npMean]
      norm_num
    have hs2 : npStd [(0 : ℝ), 2, 0, 2, 0, 2, 0, 2, 1, 1]
        = Real.sqrt (4 / 5) := by
      simp only [npStd, hm2]
      norm_num [npMean]
    have hP : pooledThresholdOf demoSnapshots = 1 + 9 * Real.sqrt (4 / 5) := by
      rw [pooledThresholdOf, hflat, hm2, hs2, THRESH_FACTOR]
    have hpos : 0 < Real.sqrt (4 / 5) := Real.sqrt_pos.mpr (by norm_num)
    rw [hT, hP]
    intro heq
    nlinarith [hpos]

/-- C9: the watermark consists of the sentinels `0x81, 0x82`, the four
decimal digits of the year, the month, two digits each for day, hour,
minute and second, the hundred-thousands and ten-thousands digits of the
microseconds, and the closing sentinels `0x83, 0x84`, each digit biased by
`127 − 5`; decoding recovers the encoded (block-duration-corrected UTC)
instant. -/
theorem gen_timestamp_layout (dt : PyDateTime)
    (hd : dt.day < 100) (hh : dt.hour < 100) (hm : dt.minute < 100)
    (hs : dt.second < 100) (hu : dt.microsecond < 1000000) :
    TimestampDecodes dt := by
  refine ⟨by simp [genTimestamp], by simp [genTimestamp],
    by simp [genTimestamp], ?_, ?_, ?_, ?_, ?_, ?_, ?_⟩ <;>
  · simp only [TimestampDecodes, genTimestamp, List.getD, List.get?,
      Option.getD_some]
    omega

/-- Witness for C9 at the concrete instant 2024-12-31 23:59:58.987654. -/
theorem gen_timestamp_layout_witness :
    ((31 : ℕ) < 100 ∧ (23 : ℕ) < 100 ∧ (59 : ℕ) < 100 ∧ (58 : ℕ) < 100
      ∧ (987654 : ℕ) < 1000000)
    ∧ TimestampDecodes ⟨2024, 12, 31, 23, 59, 58, 987654⟩ :=
  ⟨by decide,
    gen_timestamp_layout ⟨2024, 12, 31, 23, 59, 58, 987654⟩
      (by decide) (by decide) (by decide) (by decide) (by decide)⟩

/-- C10: the scanner's worker is a worker of the process, yet the shutdown
sequence neither enqueues the termination sentinel to it nor joins it: only
the demodulator workers are closed and joined, so the claim that every
worker (including the scanner's) receives a sentinel and is joined fails on
the code. -/
theorem shutdown_misses_scanner_worker (demodFreqs : List ℤ) :
    WorkerId.frequencyAdder ∈ allWorkers demodFreqs
    ∧ WorkerId.frequencyAdder ∉ shutdownSentinelTargets demodFreqs
    ∧ WorkerId.frequencyAdder ∉ shutdownJoinTargets demodFreqs := by
  refine ⟨by simp [allWorkers], ?_, ?_⟩ <;>
    simp [shutdownSentinelTargets, shutdownJoinTargets]

/-- The carrier table is periodic with period `if_period = input_rate / STEP`
whenever the IF offset is a multiple of `STEP`: advancing the index by any
multiple of the period multiplies the argument of the exponential by an
integer multiple of `−2πi`. -/
theorem carrierEntry_add_mul_period (if_freq : ℤ) (S P : ℕ)
    (hS : 0 < S) (hP : 0 < P) (m : ℤ) (hm : if_freq = S * m) (t n : ℕ) :
    carrierEntry if_freq (P * S) (t + n * P) = carrierEntry if_freq (P * S) t := by
  have hPne : (P : ℂ) ≠ 0 := Nat.cast_ne_zero.mpr hP.ne'
  have hSne : (S : ℂ) ≠ 0 := Nat.cast_ne_zero.mpr hS.ne'
  subst hm
  unfold carrierEntry
  push_cast
  rw [show (0 - Complex.I) * (2 * (Real.pi : ℂ)) * ((t : ℂ) + (n : ℂ) * (P : ℂ))
        * ((S : ℂ) * (m : ℂ) / ((P : ℂ) * (S : ℂ)))
      = (0 - Complex.I) * (2 * (Real.pi : ℂ)) * (t : ℂ)
          * ((S : ℂ) * (m : ℂ) / ((P : ℂ) * (S : ℂ)))
        + ((-((n : ℤ) * m) : ℤ) : ℂ) * (2 * (Real.pi : ℂ) * Complex.I) from by
    push_cast
    field_simp
    ring]
  rw [Complex.exp_add, Complex.exp_int_mul_two_pi_mul_I, mul_one]

/-- Reducing the table index modulo the period does not change the carrier
value. -/
theorem carrierEntry_mod (if_freq : ℤ) (S P : ℕ)
    (hS : 0 < S) (hP : 0 < P) (m : ℤ) (hm : if_freq = S * m) (t : ℕ) :
    carrierEntry if_freq (P * S) (t % P) = carrierEntry if_freq (P * S) t := by
  conv_rhs => rw [show t = t % P + t / P * P from (Nat.mod_add_div' t P).symm]
  rw [carrierEntry_add_mul_period if_freq S P hS hP m hm]

/-- Mixing a concatenation splits into mixing the parts with the phase
advanced by the length of the first part. -/
theorem mixSamples_append (if_freq : ℤ) (R : ℕ) (xs ys : List ℂ) :
    ∀ p, mixSamples if_freq R p (xs ++ ys)
      = mixSamples if_freq R p xs ++ mixSamples if_freq R (p + xs.length) ys := by
  induction xs with
  | nil => intro p; simp [mixSamples]
  | cons x xs ih =>
    intro p
    simp only [List.cons_append, mixSamples, List.length_cons, List.append_eq]
    rw [ih (p + 1), show p + 1 + xs.length = p + (xs.length + 1) from by omega]

/-- Phases congruent modulo the period mix identically. -/
theorem mixSamples_congr_mod (if_freq : ℤ) (S P : ℕ)
    (hS : 0 < S) (hP : 0 < P) (m : ℤ) (hm : if_freq = S * m) (ys : List ℂ) :
    ∀ p q, p % P = q % P →
      mixSamples if_freq (P * S) p ys = mixSamples if_freq (P * S) q ys := by
  induction ys with
  | nil => intro p q _; rfl
  | cons y ys ih =>
    intro p q hpq
    have hc : carrierEntry if_freq (P * S) p = carrierEntry if_freq (P * S) q := by
      rw [← carrierEntry_mod if_freq S P hS hP m hm p,
        ← carrierEntry_mod if_freq S P hS hP m hm q, hpq]
    have hstep : (p + 1) % P = (q + 1) % P := by
      rw [Nat.add_mod p, hpq, ← Nat.add_mod]
    simp only [mixSamples, hc, ih (p + 1) (q + 1) hstep]

/-- C2: with the IF offset a multiple of `STEP` and
`input_rate = if_period * STEP` (both asserted at startup), feeding any
sequence of sub-batches through the mixer with the phase threaded yields
exactly the same samples as mixing the whole concatenated sequence as one
batch from the same initial phase. The model works in exact complex
arithmetic, so equality holds on the nose ("to within float epsilon" in
the source's floats). -/
theorem mixer_phase_continuity (if_freq : ℤ) (S if_period : ℕ)
    (hS : 0 < S) (hP : 0 < if_period) (hdvd : (S : ℤ) ∣ if_freq)
    (phase : ℕ) (chunks : List (List ℂ)) :
    mixChunks if_freq (if_period * S) if_period phase chunks
      = (mixBatch if_freq (if_period * S) if_period phase chunks.flatten).1 := by
  obtain ⟨m, hm⟩ := hdvd
  induction chunks generalizing phase with
  | nil => rfl
  | cons c cs ih =>
    simp only [mixChunks, mixBatch, List.flatten_cons]
    rw [mixSamples_append]
    congr 1
    rw [ih ((phase + c.length) % if_period)]
    simp only [mixBatch]
    exact mixSamples_congr_mod if_freq S if_period hS hP m hm cs.flatten
      ((phase + c.length) % if_period) (phase + c.length)
      (Nat.mod_mod_of_dvd _ dvd_rfl)

/-- Witness for C2: two one-sample sub-batches at offset 4, `STEP = 2`,
period 3, initial phase 1, mixed chunked and whole. -/
theorem mixer_phase_continuity_witness :
    0 < 2 ∧ 0 < 3 ∧ ((2 : ℤ) ∣ 4)
    ∧ mixChunks 4 (3 * 2) 3 1 [[1], [Complex.I]]
      = (mixBatch 4 (3 * 2) 3 1 ([[1], [Complex.I]] : List (List ℂ)).flatten).1 :=
  ⟨by decide, by decide, by decide,
    mixer_phase_continuity 4 2 3 (by decide) (by decide) (by decide)
      1 [[1], [Complex.I]]⟩

end ScanRecordNfm
